import Mathlib

/-!
Shallow embedding of the value-validation toolkit (src/index.ts).

JavaScript numbers are modelled as either NaN or a rational value; the
comparison operators follow JavaScript semantics, where every comparison
involving NaN is false.  Runtime values relevant to the checks are modelled
by `JSValue` together with the `typeof` operator.  Each check factory from
the source is translated as a Lean function from its configuration and the
input value to a `ValidationResult`.
-/

/-- A JavaScript number: NaN or an ordinary (rational) value. -/
inductive JSNumber where
  | nan : JSNumber
  | val (q : ℚ) : JSNumber
deriving DecidableEq, Repr

/-- JavaScript `a <= b`: false whenever either side is NaN. -/
def JSNumber.jsLe : JSNumber → JSNumber → Bool
  | .val a, .val b => a ≤ b
  | _, _ => false

/-- JavaScript `a >= b`: false whenever either side is NaN. -/
def JSNumber.jsGe (a b : JSNumber) : Bool := JSNumber.jsLe b a

/-- Rendering of a number by string interpolation, as in template literals. -/
def JSNumber.render : JSNumber → String
  | .nan => "NaN"
  | .val q => if q.den = 1 then toString q.num else toString q

/-- A JavaScript runtime value, covering the type tags the checks can see. -/
inductive JSValue where
  | str (s : String) : JSValue
  | num (n : JSNumber) : JSValue
  | boolean (b : Bool) : JSValue
  | null : JSValue
  | undefined : JSValue
  | obj : JSValue
deriving DecidableEq, Repr

/-- The JavaScript `typeof` operator (note `typeof null` is `"object"`). -/
def jsTypeof : JSValue → String
  | .str _ => "string"
  | .num _ => "number"
  | .boolean _ => "boolean"
  | .null => "object"
  | .undefined => "undefined"
  | .obj => "object"

/-- The common output shape of every check: `interface ValidationResult`. -/
structure ValidationResult where
  isValid : Bool
  message : Option String
deriving DecidableEq, Repr, Inhabited

/-- The `targetType` configuration field of `checkType`. -/
inductive TargetType where
  | string : TargetType
  | number : TargetType
deriving DecidableEq, Repr

/-- The string a `TargetType` stands for in the source union type. -/
def TargetType.render : TargetType → String
  | .string => "string"
  | .number => "number"

/-- `checkType({ targetType })(value)` from src/index.ts. -/
def checkType (targetType : TargetType) (value : JSValue) : ValidationResult :=
  if jsTypeof value = targetType.render then
    { isValid := true, message := none }
  else
    { isValid := false, message := some ("Value is not a " ++ targetType.render) }

/-- `checkNumberValue({ min, max })(value)` from src/index.ts. -/
def checkNumberValue (lo hi : JSNumber) (value : JSValue) : ValidationResult :=
  match value with
  | .num n =>
      let isValid := n.jsGe lo && n.jsLe hi
      { isValid := isValid
        message :=
          if isValid then none
          else some ("Value should be between " ++ lo.render ++ " and " ++ hi.render) }
  | _ => { isValid := false, message := some "Value is not a number" }

/-- `checkStringLength({ min, max })(value)` from src/index.ts.  The length of
a string value is compared against the bounds with JavaScript comparisons. -/
def checkStringLength (lo hi : JSNumber) (value : JSValue) : ValidationResult :=
  match value with
  | .str s =>
      let stringLength : JSNumber := .val (s.length : ℚ)
      let isValid := stringLength.jsGe lo && stringLength.jsLe hi
      { isValid := isValid
        message :=
          if isValid then none
          else some ("Length should be between " ++ lo.render ++ " and " ++ hi.render) }
  | _ => { isValid := false, message := some "Value is not a string" }

example : (checkNumberValue (.val 1) (.val 5) (.num (.val 3))).isValid = true := by decide
example : checkNumberValue (.val 1) (.val 5) (.str "x") =
    { isValid := false, message := some "Value is not a number" } := by decide
example : (checkNumberValue (.val 1) (.val 5) (.num .nan)).isValid = false := by decide
example : (checkType .string (.num .nan)).message = some "Value is not a string" := by decide

/-!
Asynchronous check.  `checkAsync({ callback, timeout })` races the callback
against an optional timer that rejects with `Error("Timeout")`.  A single run
of the callback is modelled by when its promise settles and how (resolve, or
reject with some reason); the timer, when configured with delay `d`, rejects
at time `d`.  `Promise.race` settles with whichever of the two settles first
(the callback wins ties, since its promise is listed first and both settle in
the same event-loop turn).  The `catch` clause turns the rejection reason
into the result message: an `Error` contributes its `.message` string, any
other rejected value contributes `null`.
-/

/-- A JavaScript rejection reason: an `Error` carrying a message string, or
any non-`Error` value. -/
inductive JSRejection where
  | errorWith (msg : String) : JSRejection
  | nonError : JSRejection
deriving DecidableEq, Repr

/-- How a promise settles: it resolves, or rejects with a reason. -/
inductive SettleKind where
  | resolves : SettleKind
  | rejects (reason : JSRejection) : SettleKind
deriving DecidableEq, Repr

/-- One run of the user callback: the time at which its promise settles and
the way it settles. -/
structure CallbackRun where
  settleTime : ℚ
  settle : SettleKind
deriving DecidableEq, Repr

/-- JavaScript `Number(value)` on a `number | null` input: `null` becomes 0. -/
def numberOfNullable : Option JSNumber → JSNumber
  | none => .val 0
  | some n => n

/-- Outcome of `Promise.race([callback(...), timeoutPromise])`. -/
inductive RaceOutcome where
  | resolved : RaceOutcome
  | rejected (reason : JSRejection) : RaceOutcome
deriving DecidableEq, Repr

/-- The race between the callback run and the optional timer.  With no
timeout the timer promise never settles, so the callback decides the outcome;
with timeout `d` the timer's `Error("Timeout")` rejection wins exactly when
it fires strictly before the callback settles. -/
def raceAgainstTimeout (timeout : Option ℚ) (run : CallbackRun) : RaceOutcome :=
  match timeout with
  | none =>
      match run.settle with
      | .resolves => .resolved
      | .rejects reason => .rejected reason
  | some d =>
      if d < run.settleTime then .rejected (.errorWith "Timeout")
      else
        match run.settle with
        | .resolves => .resolved
        | .rejects reason => .rejected reason

/-- `checkAsync({ callback, timeout })(value)` from src/index.ts: the value is
coerced with `Number`, the callback is raced against the timer, and the
`try`/`catch` converts the outcome into a `ValidationResult` that is always
returned to the caller (no rejection escapes). -/
def checkAsync (callback : JSNumber → CallbackRun) (timeout : Option ℚ)
    (value : Option JSNumber) : ValidationResult :=
  match raceAgainstTimeout timeout (callback (numberOfNullable value)) with
  | .resolved => { isValid := true, message := none }
  | .rejected (.errorWith m) => { isValid := false, message := some m }
  | .rejected .nonError => { isValid := false, message := none }

/-!
Validation runners.  `syncValidate` maps the validators over the value.
`asyncValidate` is `Promise.all` over the validator promises: each promise
carries a settle time, the event loop delivers the completions in settle-time
order, and `Promise.all` writes each completion into the slot of its input
index; the aggregate resolves once every slot is written.
-/

/-- The settled promise of one async validator invocation: when it settles
and the `ValidationResult` it resolves to. -/
structure PromiseRun where
  settleTime : ℚ
  value : ValidationResult
deriving DecidableEq, Repr

/-- `type AsyncValidator = (value: number | null) => Promise<ValidationResult>`. -/
abbrev AsyncValidator := Option JSNumber → PromiseRun

/-- `syncValidate(value, validators)` from src/index.ts. -/
def syncValidate (value : JSValue) (validators : List (JSValue → ValidationResult)) :
    List ValidationResult :=
  validators.map (fun validator => validator value)

/-- One completion event delivered to `Promise.all`: it stores the settled
result into the slot of the originating input index. -/
def applyCompletion (acc : List ValidationResult) (e : Nat × ValidationResult) :
    List ValidationResult :=
  acc.set e.1 e.2

/-- Delivery of a sequence of completion events to the result slots. -/
def runCompletions (init : List ValidationResult)
    (events : List (Nat × ValidationResult)) : List ValidationResult :=
  events.foldl applyCompletion init

/-- The completion events of a batch of promises, in the order the event loop
delivers them: sorted by settle time, each tagged with its input index. -/
def settleOrder (ps : List PromiseRun) : List (Nat × ValidationResult) :=
  (List.insertionSort (fun a b => a.2.settleTime ≤ b.2.settleTime) ps.enum).map
    (fun e => (e.1, e.2.value))

/-- The value of an unwritten `Promise.all` slot (never observable once every
promise has settled). -/
def placeholderResult : ValidationResult := { isValid := false, message := none }

/-- `asyncValidate(value, validators)` from src/index.ts: start every
validator on the same value, let the completions arrive in settle-time order,
and resolve with the filled slot array. -/
def asyncValidate (value : Option JSNumber) (validators : List AsyncValidator) :
    List ValidationResult :=
  let promises := validators.map (fun validator => validator value)
  runCompletions (List.replicate promises.length placeholderResult) (settleOrder promises)

/-!
Reporter.  `StdoutReporter` captures a batch of results; `report` writes one
line per result to standard output, modelled as the list of written lines.
-/

/-- `class StdoutReporter` from src/index.ts: the captured batch. -/
structure StdoutReporter where
  result : List ValidationResult
deriving DecidableEq, Repr

/-- `isValid()`: `this.result.every((res) => res.isValid)`. -/
def StdoutReporter.isValid (r : StdoutReporter) : Bool :=
  r.result.all (fun res => res.isValid)

/-- `pickInvalid()`: `this.result.filter((res) => !res.isValid)`. -/
def StdoutReporter.pickInvalid (r : StdoutReporter) : List ValidationResult :=
  r.result.filter (fun res => !res.isValid)

/-- `pickValid()`: `this.result.filter((res) => res.isValid)`. -/
def StdoutReporter.pickValid (r : StdoutReporter) : List ValidationResult :=
  r.result.filter (fun res => res.isValid)

/-- String interpolation of a `string | null` value: `null` renders as the
literal text "null". -/
def renderNullable : Option String → String
  | none => "null"
  | some s => s

/-- The line `console.log` receives for the result at a given index. -/
def reportLine (index : Nat) (res : ValidationResult) : String :=
  "[#" ++ toString index ++ "][ " ++ (if res.isValid then "valid" else "invalid")
    ++ " ] | " ++ renderNullable res.message

/-- `report()`: `forEach` over the batch, appending one line per result to
the standard output stream (modelled as the list of lines written). -/
def StdoutReporter.report (r : StdoutReporter) : List String :=
  r.result.enum.foldl (fun out e => out ++ [reportLine e.1 e.2]) []

example : (StdoutReporter.mk [⟨true, none⟩, ⟨false, some "bad"⟩]).report =
    ["[#0][ valid ] | null", "[#1][ invalid ] | bad"] := by decide
example : (StdoutReporter.mk []).isValid = true := by decide
example : asyncValidate none
    [fun _ => ⟨10, ⟨true, none⟩⟩, fun _ => ⟨1, ⟨false, some "bad"⟩⟩] =
    [⟨true, none⟩, ⟨false, some "bad"⟩] := by decide

/-- The stated result invariant: valid exactly when the message is absent. -/
abbrev resultInvariant (r : ValidationResult) : Bool :=
  r.isValid == r.message.isNone

/-- A callback whose promise rejects immediately with a non-`Error` value. -/
def nonErrorRejectingCallback : JSNumber → CallbackRun :=
  fun _ => { settleTime := 0, settle := .rejects .nonError }

/-- C1 (counterexample): a `checkAsync` predicate whose callback rejects with
a non-`Error` value produces `isValid = false` with an absent message, so
`isValid == true ⇔ message is absent` fails for that result. -/
theorem checkAsync_nonError_breaks_invariant :
    ¬ ((checkAsync nonErrorRejectingCallback none (some (.val 5))).isValid = true ↔
       (checkAsync nonErrorRejectingCallback none (some (.val 5))).message = none) := by
  decide

/-- C1 (amended): the invariant `isValid == true ⇔ message absent` holds for
every result of `checkType`, `checkNumberValue` and `checkStringLength`; for
`checkAsync` the forward direction holds (a valid result always has an absent
message, and a result carrying a message is always invalid), but an invalid
result may have an absent message (non-`Error` rejection); the reporter
operations preserve the invariant of their batch. -/
theorem result_invariant_amended :
    (∀ t v, resultInvariant (checkType t v) = true)
    ∧ (∀ lo hi v, resultInvariant (checkNumberValue lo hi v) = true)
    ∧ (∀ lo hi v, resultInvariant (checkStringLength lo hi v) = true)
    ∧ (∀ cb timeout v, (checkAsync cb timeout v).isValid = true →
        (checkAsync cb timeout v).message = none)
    ∧ (∀ cb timeout v m, (checkAsync cb timeout v).message = some m →
        (checkAsync cb timeout v).isValid = false)
    ∧ (∀ batch, (∀ r ∈ batch, resultInvariant r = true) →
        (∀ r ∈ (StdoutReporter.mk batch).pickValid, resultInvariant r = true)
        ∧ (∀ r ∈ (StdoutReporter.mk batch).pickInvalid, resultInvariant r = true)) := by
  refine ⟨?_, ?_, ?_, ?_, ?_, ?_⟩
  · intro t v
    unfold checkType
    split <;> rfl
  · intro lo hi v
    unfold checkNumberValue
    cases v <;> try rfl
    simp only
    split <;> rename_i h <;> simp [resultInvariant, h]
  · intro lo hi v
    unfold checkStringLength
    cases v <;> try rfl
    simp only
    split <;> rename_i h <;> simp [resultInvariant, h]
  · intro cb timeout v h
    unfold checkAsync at h ⊢
    rcases hr : raceAgainstTimeout timeout (cb (numberOfNullable v)) with _ | reason
    · rfl
    · rcases reason <;> simp [hr] at h
  · intro cb timeout v m h
    unfold checkAsync at h ⊢
    rcases hr : raceAgainstTimeout timeout (cb (numberOfNullable v)) with _ | reason
    · simp [hr] at h
    · rcases reason <;> simp [hr]
  · intro batch hbatch
    constructor
    · intro r hr
      exact hbatch r (List.mem_filter.mp hr).1
    · intro r hr
      exact hbatch r (List.mem_filter.mp hr).1

/-- Closed instance of `result_invariant_amended` at concrete inputs,
discharging each hypothesis. -/
theorem result_invariant_amended_witness :
    resultInvariant (checkNumberValue (.val 1) (.val 5) (.str "x")) = true
    ∧ (checkAsync nonErrorRejectingCallback none none).isValid = false
    ∧ resultInvariant (checkType .string (.str "a")) = true := by
  refine ⟨result_invariant_amended.2.1 (.val 1) (.val 5) (.str "x"), ?_, ?_⟩
  · have h :=
      (result_invariant_amended.2.2.2.2.2 [checkType TargetType.string (JSValue.str "a")]
        (by decide)).1 (checkType TargetType.string (JSValue.str "a")) (by decide)
    decide
  · exact result_invariant_amended.1 .string (.str "a")

/-- C5: `checkType({targetType: t})(v)` is valid exactly when `typeof v`
equals `t`; on failure the message names the target type; boolean, null,
undefined and object inputs never match and always fail. -/
theorem checkType_spec (t : TargetType) (v : JSValue) :
    ((checkType t v).isValid = true ↔ jsTypeof v = t.render)
    ∧ (jsTypeof v ≠ t.render →
        checkType t v =
          { isValid := false, message := some ("Value is not a " ++ t.render) })
    ∧ (∀ b, v = .boolean b → (checkType t v).isValid = false)
    ∧ (v = .null → (checkType t v).isValid = false)
    ∧ (v = .undefined → (checkType t v).isValid = false)
    ∧ (v = .obj → (checkType t v).isValid = false) := by
  refine ⟨?_, ?_, ?_, ?_, ?_, ?_⟩
  · unfold checkType
    split <;> rename_i h <;> simp [h]
  · intro h
    unfold checkType
    rw [if_neg h]
  · rintro b rfl
    cases t <;> cases b <;> decide
  · rintro rfl
    cases t <;> decide
  · rintro rfl
    cases t <;> decide
  · rintro rfl
    cases t <;> decide

/-- Closed instance of `checkType_spec` at concrete inputs, discharging each
hypothesis. -/
theorem checkType_spec_witness :
    ((checkType .number (.num .nan)).isValid = true ↔ jsTypeof (.num .nan) = "number")
    ∧ checkType .number (.str "hi") =
        { isValid := false, message := some "Value is not a number" }
    ∧ (checkType .string (.boolean true)).isValid = false
    ∧ (checkType .string .null).isValid = false := by
  refine ⟨(checkType_spec .number (.num .nan)).1, ?_, ?_, ?_⟩
  · exact (checkType_spec .number (.str "hi")).2.1 (by decide)
  · exact (checkType_spec .string (.boolean true)).2.2.1 true rfl
  · exact (checkType_spec .string .null).2.2.2.1 rfl

/-- C4: `checkNumberValue({min,max})(v)` fails with "Value is not a number"
whenever `typeof v` is not "number"; on an ordinary numeric input with
ordinary bounds it is valid exactly when `min ≤ v ≤ max` (both bounds
inclusive) and otherwise carries the interpolated range message. -/
theorem checkNumberValue_spec (lo hi : JSNumber) (v : JSValue) :
    (jsTypeof v ≠ "number" →
      checkNumberValue lo hi v =
        { isValid := false, message := some "Value is not a number" })
    ∧ (∀ a b q : ℚ, lo = .val a → hi = .val b → v = .num (.val q) →
        ((checkNumberValue lo hi v).isValid = true ↔ a ≤ q ∧ q ≤ b)
        ∧ (¬ (a ≤ q ∧ q ≤ b) →
            (checkNumberValue lo hi v).message =
              some ("Value should be between " ++ lo.render ++ " and " ++ hi.render))) := by
  constructor
  · intro h
    cases v <;> first
      | rfl
      | exact absurd rfl h
  · rintro a b q rfl rfl rfl
    constructor
    · simp [checkNumberValue, JSNumber.jsGe, JSNumber.jsLe]
    · intro h
      have : ((JSNumber.val q).jsGe (.val a) && (JSNumber.val q).jsLe (.val b)) = false := by
        simp [JSNumber.jsGe, JSNumber.jsLe]
        intro ha
        rcases not_and_or.mp h with hb | hb
        · exact absurd ha hb
        · exact lt_of_not_le hb
      simp [checkNumberValue, this]

/-- Closed instance of `checkNumberValue_spec` at concrete inputs,
discharging each hypothesis. -/
theorem checkNumberValue_spec_witness :
    checkNumberValue (.val 1) (.val 5) (.boolean true) =
      { isValid := false, message := some "Value is not a number" }
    ∧ ((checkNumberValue (.val 1) (.val 5) (.num (.val 3))).isValid = true ↔
        (1 : ℚ) ≤ 3 ∧ (3 : ℚ) ≤ 5)
    ∧ (checkNumberValue (.val 1) (.val 5) (.num (.val 7))).message =
        some "Value should be between 1 and 5" := by
  refine ⟨(checkNumberValue_spec (.val 1) (.val 5) (.boolean true)).1 (by decide), ?_, ?_⟩
  · exact ((checkNumberValue_spec (.val 1) (.val 5) (.num (.val 3))).2 1 5 3 rfl rfl rfl).1
  · have h :=
      ((checkNumberValue_spec (.val 1) (.val 5) (.num (.val 7))).2 1 5 7 rfl rfl rfl).2
        (by norm_num)
    rw [h]
    decide

/-- C10: on NaN input (with ordinary rational bounds) `checkNumberValue`
passes the runtime type test, fails both range comparisons, and reports the
range message, not the not-a-number message. -/
theorem checkNumberValue_nan (lo hi : JSNumber) :
    jsTypeof (.num .nan) = "number"
    ∧ checkNumberValue lo hi (.num .nan) =
        { isValid := false
          message := some ("Value should be between " ++ lo.render ++ " and " ++ hi.render) }
    ∧ ("Value should be between " ++ lo.render ++ " and " ++ hi.render) ≠
        "Value is not a number" := by
  refine ⟨rfl, ?_, ?_⟩
  · cases lo <;> cases hi <;> rfl
  · intro h
    have hlen := congrArg String.length h
    simp only [String.length_append] at hlen
    rw [show ("Value should be between " : String).length = 24 from rfl,
        show (" and " : String).length = 5 from rfl,
        show ("Value is not a number" : String).length = 21 from rfl] at hlen
    omega

/-- Closed instance of `checkNumberValue_nan` at concrete bounds. -/
theorem checkNumberValue_nan_witness :
    checkNumberValue (.val 1) (.val 5) (.num .nan) =
      { isValid := false, message := some "Value should be between 1 and 5" } := by
  have h := (checkNumberValue_nan (.val 1) (.val 5)).2.1
  rw [h]
  decide

/-- The message the `catch` clause extracts from a rejection reason:
`e instanceof Error ? e.message : null`. -/
def rejectionMessage : JSRejection → Option String
  | .errorWith m => some m
  | .nonError => none

/-- C2: when the callback rejects before any configured timeout fires, the
`checkAsync` predicate returns (never throws) an invalid result whose message
is the rejection's description when it carries one and absent otherwise. -/
theorem checkAsync_rejection_contained (callback : JSNumber → CallbackRun)
    (timeout : Option ℚ) (value : Option JSNumber) (reason : JSRejection)
    (hreject : (callback (numberOfNullable value)).settle = .rejects reason)
    (hfirst : ∀ d, timeout = some d → (callback (numberOfNullable value)).settleTime < d) :
    checkAsync callback timeout value =
      { isValid := false, message := rejectionMessage reason } := by
  rcases timeout with _ | d
  · simp only [checkAsync, raceAgainstTimeout]
    rw [hreject]
    cases reason <;> rfl
  · simp only [checkAsync, raceAgainstTimeout]
    rw [if_neg (hfirst d rfl).asymm, hreject]
    cases reason <;> rfl

/-- A callback that rejects with `Error("boom")` at time 1. -/
def boomCallback : JSNumber → CallbackRun :=
  fun _ => { settleTime := 1, settle := .rejects (.errorWith "boom") }

/-- Closed instance of `checkAsync_rejection_contained`: a callback rejecting
with `Error("boom")` at time 1 under a timeout of 5. -/
theorem checkAsync_rejection_contained_witness :
    checkAsync boomCallback (some 5) (some (.val 3)) =
      { isValid := false, message := some "boom" } := by
  have h := checkAsync_rejection_contained boomCallback (some 5) (some (.val 3))
    (.errorWith "boom") rfl
    (by intro d hd; injection hd with hd; rw [← hd]; norm_num [boomCallback])
  exact h

/-- C3: when the configured timeout fires strictly before the callback
settles, the `checkAsync` predicate returns (never throws) an invalid result
with message "Timeout". -/
theorem checkAsync_timeout (callback : JSNumber → CallbackRun) (d : ℚ)
    (value : Option JSNumber)
    (hfirst : d < (callback (numberOfNullable value)).settleTime) :
    checkAsync callback (some d) value =
      { isValid := false, message := some "Timeout" } := by
  simp only [checkAsync, raceAgainstTimeout]
  rw [if_pos hfirst]

/-- A callback that resolves successfully, but only at time 1000. -/
def slowCallback : JSNumber → CallbackRun :=
  fun _ => { settleTime := 1000, settle := .resolves }

/-- Closed instance of `checkAsync_timeout`: a callback resolving at time
1000 under a timeout of 10. -/
theorem checkAsync_timeout_witness :
    checkAsync slowCallback (some 10) (some (.val 5)) =
      { isValid := false, message := some "Timeout" } :=
  checkAsync_timeout slowCallback 10 (some (.val 5)) (by norm_num [slowCallback])

/-- C7: `syncValidate` returns one result per validator, index-aligned: the
i-th result is the i-th validator applied to the value. -/
theorem syncValidate_spec (value : JSValue)
    (validators : List (JSValue → ValidationResult)) :
    (syncValidate value validators).length = validators.length
    ∧ ∀ i (h : i < validators.length),
        (syncValidate value validators).get? i = some ((validators.get ⟨i, h⟩) value) := by
  constructor
  · exact List.length_map validators _
  · intro i h
    rw [syncValidate, List.get?_map, List.get?_eq_get h]
    rfl

/-- Closed instance of `syncValidate_spec` on a two-validator batch,
discharging the index hypothesis. -/
theorem syncValidate_spec_witness :
    (syncValidate (.num (.val 3)) [checkType .number, checkNumberValue (.val 1) (.val 2)]).length = 2
    ∧ (syncValidate (.num (.val 3))
        [checkType .number, checkNumberValue (.val 1) (.val 2)]).get? 1 =
      some (checkNumberValue (.val 1) (.val 2) (.num (.val 3))) := by
  refine ⟨(syncValidate_spec (.num (.val 3))
    [checkType .number, checkNumberValue (.val 1) (.val 2)]).1, ?_⟩
  exact (syncValidate_spec (.num (.val 3))
    [checkType .number, checkNumberValue (.val 1) (.val 2)]).2 1 (by decide)

/-- C8: `isValid()` is true exactly when every result in the batch is valid
(so true on the empty batch); `pickInvalid()` and `pickValid()` are the
order-preserving subsequences of exactly the invalid, respectively valid,
results. -/
theorem reporter_ops_spec (batch : List ValidationResult) :
    ((StdoutReporter.mk batch).isValid = true ↔ ∀ r ∈ batch, r.isValid = true)
    ∧ (StdoutReporter.mk []).isValid = true
    ∧ (StdoutReporter.mk batch).pickInvalid.Sublist batch
    ∧ (∀ r ∈ (StdoutReporter.mk batch).pickInvalid, r.isValid = false)
    ∧ (StdoutReporter.mk batch).pickInvalid.length = batch.countP (fun r => !r.isValid)
    ∧ (StdoutReporter.mk batch).pickValid.Sublist batch
    ∧ (∀ r ∈ (StdoutReporter.mk batch).pickValid, r.isValid = true)
    ∧ (StdoutReporter.mk batch).pickValid.length = batch.countP (fun r => r.isValid) := by
  refine ⟨?_, rfl, List.filter_sublist batch, ?_, ?_, List.filter_sublist batch, ?_, ?_⟩
  · simpa [StdoutReporter.isValid] using List.all_eq_true (l := batch) (p := fun r => r.isValid)
  · intro r hr
    simpa using (List.mem_filter.mp hr).2
  · rw [List.countP_eq_length_filter]
    rfl
  · intro r hr
    exact (List.mem_filter.mp hr).2
  · rw [List.countP_eq_length_filter]
    rfl

/-- Accumulating one output line per entry is the same as mapping the line
renderer over the entries. -/
theorem foldl_reportLine_eq_map (l : List (Nat × ValidationResult)) (acc : List String) :
    l.foldl (fun out e => out ++ [reportLine e.1 e.2]) acc
      = acc ++ l.map (fun e => reportLine e.1 e.2) := by
  induction l generalizing acc with
  | nil => simp
  | cons e es ih => simp [ih]

/-- C9: `report()` writes exactly one line per result, in batch order; the
line for position i is `[#i][ valid ] | m` or `[#i][ invalid ] | m` with the
zero-based index i, and an absent message renders as the text "null". -/
theorem report_spec (r : StdoutReporter) :
    r.report.length = r.result.length
    ∧ ∀ i (h : i < r.result.length),
        r.report.get? i =
          some ("[#" ++ toString i ++ "][ "
            ++ (if (r.result.get ⟨i, h⟩).isValid then "valid" else "invalid")
            ++ " ] | " ++ renderNullable (r.result.get ⟨i, h⟩).message) := by
  have hrep : r.report = r.result.enum.map (fun e => reportLine e.1 e.2) := by
    rw [StdoutReporter.report, foldl_reportLine_eq_map]
    rfl
  constructor
  · rw [hrep, List.length_map, List.enum_length]
  · intro i h
    rw [hrep, List.get?_map, List.get?_eq_getElem?, List.getElem?_enum,
      List.getElem?_eq_getElem h]
    simp [reportLine]

/-- Closed instance of `report_spec` on a concrete batch, discharging the
index hypotheses: the two lines the spec example promises. -/
theorem report_spec_witness :
    (StdoutReporter.mk [⟨true, none⟩, ⟨false, some "bad"⟩]).report.length = 2
    ∧ (StdoutReporter.mk [⟨true, none⟩, ⟨false, some "bad"⟩]).report.get? 0 =
        some "[#0][ valid ] | null"
    ∧ (StdoutReporter.mk [⟨true, none⟩, ⟨false, some "bad"⟩]).report.get? 1 =
        some "[#1][ invalid ] | bad" := by
  refine ⟨(report_spec (StdoutReporter.mk [⟨true, none⟩, ⟨false, some "bad"⟩])).1, ?_, ?_⟩
  · rw [(report_spec (StdoutReporter.mk [⟨true, none⟩, ⟨false, some "bad"⟩])).2 0 (by decide)]
    decide
  · rw [(report_spec (StdoutReporter.mk [⟨true, none⟩, ⟨false, some "bad"⟩])).2 1 (by decide)]
    decide

/-- Delivering completion events never changes the number of result slots. -/
theorem runCompletions_length (events : List (Nat × ValidationResult)) :
    ∀ init : List ValidationResult, (runCompletions init events).length = init.length := by
  induction events with
  | nil => intro init; rfl
  | cons e es ih =>
    intro init
    rw [show runCompletions init (e :: es) = runCompletions (applyCompletion init e) es from rfl,
      ih (applyCompletion init e)]
    simp [applyCompletion]

/-- A slot no event writes to keeps its initial content. -/
theorem runCompletions_get_of_not_mem (events : List (Nat × ValidationResult)) (j : Nat) :
    ∀ init : List ValidationResult, (∀ e ∈ events, e.1 ≠ j) →
      (runCompletions init events).get? j = init.get? j := by
  induction events with
  | nil => intro init _; rfl
  | cons e es ih =>
    intro init h
    rw [show runCompletions init (e :: es) = runCompletions (applyCompletion init e) es from rfl,
      ih (applyCompletion init e) (fun x hx => h x (List.mem_cons_of_mem e hx))]
    exact List.get?_set_ne e.2 init (h e (List.mem_cons_self e es))

/-- A slot written at least once, always with the same value, holds that
value after all events are delivered — in whatever order they arrive. -/
theorem runCompletions_get_of_mem (events : List (Nat × ValidationResult)) (j : Nat)
    (r : ValidationResult) :
    ∀ init : List ValidationResult, j < init.length →
      (∀ e ∈ events, e.1 = j → e.2 = r) → (∃ e ∈ events, e.1 = j) →
      (runCompletions init events).get? j = some r := by
  induction events with
  | nil =>
    intro init _ _ hmem
    rcases hmem with ⟨e, he, _⟩
    exact absurd he (List.not_mem_nil e)
  | cons e es ih =>
    intro init hj hall hmem
    by_cases hes : ∃ x ∈ es, x.1 = j
    · exact ih (applyCompletion init e) (by simpa [applyCompletion] using hj)
        (fun x hx hxj => hall x (List.mem_cons_of_mem e hx) hxj) hes
    · have hej : e.1 = j := by
        rcases hmem with ⟨x, hx, hxj⟩
        rcases List.mem_cons.mp hx with rfl | hx'
        · exact hxj
        · exact absurd ⟨x, hx', hxj⟩ hes
      have her : e.2 = r := hall e (List.mem_cons_self e es) hej
      have hnot : ∀ x ∈ es, x.1 ≠ j := fun x hx hxj => hes ⟨x, hx, hxj⟩
      subst hej
      subst her
      rw [show runCompletions init (e :: es) = runCompletions (applyCompletion init e) es from rfl,
        runCompletions_get_of_not_mem es e.1 (applyCompletion init e) hnot]
      exact List.get?_set_eq_of_lt e.2 hj

/-- Every completion event of a promise batch carries the settled value of
the promise at its index. -/
theorem mem_settleOrder (ps : List PromiseRun) (e : Nat × ValidationResult)
    (he : e ∈ settleOrder ps) : ∃ p : PromiseRun, ps.get? e.1 = some p ∧ e.2 = p.value := by
  rcases List.mem_map.mp he with ⟨x, hx, hxe⟩
  have hx' : x ∈ ps.enum := ((List.perm_insertionSort _ ps.enum).mem_iff).mp hx
  have hget : ps.get? x.1 = some x.2 := by
    have := List.mk_mem_enum_iff_getElem?.mp (by rwa [show (x.1, x.2) = x from rfl])
    rw [List.get?_eq_getElem?]
    exact this
  subst hxe
  exact ⟨x.2, hget, rfl⟩

/-- Every index of a promise batch receives a completion event. -/
theorem settleOrder_surjective (ps : List PromiseRun) (j : Nat) (hj : j < ps.length) :
    ∃ e ∈ settleOrder ps, e.1 = j := by
  have hm : (j, ps.get ⟨j, hj⟩) ∈ ps.enum := by
    apply List.mk_mem_enum_iff_getElem?.mpr
    rw [← List.get?_eq_getElem?]
    exact List.get?_eq_get hj
  have hm' : (j, ps.get ⟨j, hj⟩) ∈
      List.insertionSort (fun a b => a.2.settleTime ≤ b.2.settleTime) ps.enum :=
    ((List.perm_insertionSort _ ps.enum).mem_iff).mpr hm
  exact ⟨(j, (ps.get ⟨j, hj⟩).value),
    List.mem_map.mpr ⟨(j, ps.get ⟨j, hj⟩), hm', rfl⟩, rfl⟩

/-- C6: `asyncValidate` resolves to one result per validator, index-aligned
with the input validator list — whatever the settle times (and hence the
completion order) of the validators' promises. -/
theorem asyncValidate_spec (value : Option JSNumber) (validators : List AsyncValidator) :
    (asyncValidate value validators).length = validators.length
    ∧ ∀ i (h : i < validators.length),
        (asyncValidate value validators).get? i =
          some ((validators.get ⟨i, h⟩) value).value := by
  constructor
  · rw [show asyncValidate value validators =
        runCompletions
          (List.replicate (validators.map (fun validator => validator value)).length
            placeholderResult)
          (settleOrder (validators.map (fun validator => validator value))) from rfl,
      runCompletions_length, List.length_replicate, List.length_map]
  · intro i h
    have hps : i < (validators.map (fun validator => validator value)).length := by
      rwa [List.length_map]
    have hget : (validators.map (fun validator => validator value)).get? i =
        some ((validators.get ⟨i, h⟩) value) := by
      rw [List.get?_map, List.get?_eq_get h]
      rfl
    rw [show asyncValidate value validators =
        runCompletions
          (List.replicate (validators.map (fun validator => validator value)).length
            placeholderResult)
          (settleOrder (validators.map (fun validator => validator value))) from rfl]
    apply runCompletions_get_of_mem
    · rwa [List.length_replicate]
    · intro e he hei
      rcases mem_settleOrder _ e he with ⟨p, hp, hev⟩
      rw [hei, hget] at hp
      rw [hev, Option.some.inj hp]
    · exact settleOrder_surjective _ i hps

/-- A validator whose promise settles late (time 10) with a valid result. -/
def sampleSlowValidator : AsyncValidator :=
  fun _ => { settleTime := 10, value := { isValid := true, message := none } }

/-- A validator whose promise settles early (time 1) with an invalid result. -/
def sampleFastValidator : AsyncValidator :=
  fun _ => { settleTime := 1, value := { isValid := false, message := some "bad" } }

/-- Closed instance of `asyncValidate_spec` where the second validator
settles before the first: results still follow input order. -/
theorem asyncValidate_spec_witness :
    (asyncValidate none [sampleSlowValidator, sampleFastValidator]).length = 2
    ∧ (asyncValidate none [sampleSlowValidator, sampleFastValidator]).get? 0 =
        some { isValid := true, message := none }
    ∧ (asyncValidate none [sampleSlowValidator, sampleFastValidator]).get? 1 =
        some { isValid := false, message := some "bad" } := by
  refine ⟨(asyncValidate_spec none [sampleSlowValidator, sampleFastValidator]).1, ?_, ?_⟩
  · rw [(asyncValidate_spec none [sampleSlowValidator, sampleFastValidator]).2 0 (by decide)]
    rfl
  · rw [(asyncValidate_spec none [sampleSlowValidator, sampleFastValidator]).2 1 (by decide)]
    rfl

/-- A concrete two-result batch: one valid, one invalid. -/
def sampleBatch : List ValidationResult :=
  [{ isValid := true, message := none }, { isValid := false, message := some "bad" }]

/-- Closed instance of `reporter_ops_spec` on a concrete batch, discharging
the membership hypotheses. -/
theorem reporter_ops_spec_witness :
    (StdoutReporter.mk sampleBatch).pickInvalid.Sublist sampleBatch
    ∧ (StdoutReporter.mk sampleBatch).pickInvalid.length = 1
    ∧ ((StdoutReporter.mk sampleBatch).pickValid.headI).isValid = true := by
  refine ⟨(reporter_ops_spec sampleBatch).2.2.1, ?_, ?_⟩
  · rw [(reporter_ops_spec sampleBatch).2.2.2.2.1]
    decide
  · exact (reporter_ops_spec sampleBatch).2.2.2.2.2.2.1
      ((StdoutReporter.mk sampleBatch).pickValid.headI) (by decide)
